import Mathlib

/-!
Verification of the hierarchical geometry resolution engine of `convert.py`
(Cadence layout ASCII dump → SVG converter).

The Python source is shallowly embedded below.  Numeric coordinates are
modelled as exact rationals (`ℚ`); the spec's data model declares
rational/integer coordinates, idealizing Python's float arithmetic, and the
only arithmetic the program performs on coordinates is division by 10 at
ingestion and negation/swap/addition afterwards.  The SVG string serialization
(path strings, headers) is out of the spec's scope; an emitted `<path>` line is
modelled as an `OutRecord` carrying its layer, transformed point list, the
closed flag (the trailing `z` SVG command), the object id and the style
triple, instead of the literal string concatenation.
-/

namespace Convert

/-- The `layer_colors` table of `convert.py` (the active, uncommented entries):
for each layer, `(fill color, fill opacity, stroke color)`.  Lookup of an
absent key yields `none` (modelling Python's `in`-test on the dict). -/
def layer_colors : List (ℤ × (String × String × String)) :=
  [ (3,   ("9900e6", "0.1", "9900e6")),
    (6,   ("e71f0d", "0.5", "e71f0d")),
    (17,  ("01fe00", "0.3", "01fe00")),
    (18,  ("01fe00", "0.0", "01fe00")),
    (25,  ("01fe00", "0.0", "01fe00")),
    (26,  ("01fe00", "0.0", "01fe00")),
    (30,  ("ffffff", "1.0", "ffffff")),
    (31,  ("0000ff", "0.3", "0000ff")),
    (32,  ("ff0000", "0.3", "ff0000")),
    (33,  ("01cc66", "0.3", "01cc66")),
    (34,  ("ffbff2", "0.3", "ffbff2")),
    (35,  ("01fe00", "0.0", "01fe00")),
    (36,  ("01fe00", "0.0", "01fe00")),
    (37,  ("01fe00", "0.0", "01fe00")),
    (38,  ("01fe00", "0.0", "01fe00")),
    (57,  ("01fe00", "0.0", "01fe00")),
    (75,  ("01fe00", "0.0", "01fe00")),
    (77,  ("01fe00", "0.0", "01fe00")),
    (88,  ("01fe00", "0.0", "01fe00")),
    (131, ("01fe00", "0.0", "01fe00")),
    (132, ("01fe00", "0.0", "01fe00")),
    (133, ("01fe00", "0.0", "01fe00")),
    (148, ("01fe00", "0.0", "01fe00")),
    (149, ("01fe00", "0.0", "01fe00")),
    (150, ("bf4026", "0.0", "bf4026")) ]

/-- Dict lookup `layer_colors.get(layer)`. -/
def lookupLayer (layer : ℤ) : Option (String × String × String) :=
  layer_colors.lookup layer

/-- The fallback style used when a layer is absent from `layer_colors`:
`color_info = ("000000", "0.8", "000000")` (black fill, opacity 0.8,
black stroke). -/
def fallback_color_info : String × String × String := ("000000", "0.8", "000000")

/-- The style triple `Polygon.print_me` selects for a layer: the table entry
when present, the black fallback otherwise. -/
def styleFor (layer : ℤ) : String × String × String :=
  match lookupLayer layer with
  | some ci => ci
  | none => fallback_color_info

/-- `rot_mirror_and_offset(obj_x, obj_y, angle, mirror, off_x, off_y)` of
`convert.py`: rotate CCW by `angle` (only 90/180/270 are recognized; any other
value falls into the `else  # angle == 0` branch), then mirror across the
x-axis if `mirror`, then add the offset. -/
def rot_mirror_and_offset (obj_x obj_y : ℚ) (angle : ℚ) (mirror : Bool)
    (off_x off_y : ℚ) : ℚ × ℚ :=
  let m : ℚ × ℚ :=
    if angle = 90 then (-obj_y, obj_x)
    else if angle = 180 then (-obj_x, -obj_y)
    else if angle = 270 then (obj_y, -obj_x)
    else (obj_x, obj_y)
  let my_y : ℚ := if mirror then -m.2 else m.2
  (m.1 + off_x, my_y + off_y)

/-- Python's `%` on (real) numbers: `a % b = a - b * floor(a / b)`
(result has the sign of `b`).  Used for `(c[3] + angle) % 360` in
`Container.print_me`.  `Rat.floor` is used so the definition evaluates by
kernel reduction. -/
def pymod (a b : ℚ) : ℚ := a - b * (⌊a / b⌋ : ℤ)

/-- Modelled from the spec (§4.2), for comparison with the source: rotate by
the exact right-angle forms 0→(x,y), 90→(−y,x), 180→(−x,−y), 270→(y,−x). -/
def spec_rotate (a : ℚ) (p : ℚ × ℚ) : ℚ × ℚ :=
  if a = 0 then p
  else if a = 90 then (-p.2, p.1)
  else if a = 180 then (-p.1, -p.2)
  else (p.2, -p.1)

/-- Modelled from the spec (§4.2): if `mirror`, negate the y coordinate. -/
def spec_mirror (m : Bool) (p : ℚ × ℚ) : ℚ × ℚ :=
  if m then (p.1, -p.2) else p

/-- Modelled from the spec (§4.2): `compose` = rotate, then mirror, then add
the offset componentwise, i.e. `offset + M(mirror) · R(angle) · (x,y)`. -/
def spec_compose (p : ℚ × ℚ) (a : ℚ) (m : Bool) (o : ℚ × ℚ) : ℚ × ℚ :=
  ((spec_mirror m (spec_rotate a p)).1 + o.1,
   (spec_mirror m (spec_rotate a p)).2 + o.2)

/-- One emitted `<path>` line of `to_write`, with the serializer-level string
concatenation abstracted: its layer (the sort key), the transformed points of
the `d="M … L … z"` attribute in order, the `closed` flag standing for the
trailing `z` command, the object id (`self.id` is `"path" ++ toString oid` in
the source; the constant prefix is dropped), and the style triple. -/
structure OutRecord where
  layer : ℤ
  pathPts : List (ℚ × ℚ)
  closed : Bool
  oid : ℕ
  style : String × String × String
  deriving DecidableEq, Repr

/-- The point list the SVG renderer traces for a record: the listed points,
then — for a path closed by `z` — back to the first point (the first point
repeated as the last). -/
def svgTracedPts (r : OutRecord) : List (ℚ × ℚ) :=
  r.pathPts ++ (if r.closed then r.pathPts.take 1 else [])

/-- `set.add`: the Python set `undefined_layers` is modelled extensionally as
a duplicate-free list; adding an element already present is a no-op. -/
def setAdd (s : List ℤ) (l : ℤ) : List ℤ := if l ∈ s then s else s ++ [l]

/-- The process-wide mutable state the printing pass touches: the `to_write`
list of emitted records and the `undefined_layers` diagnostic set. -/
structure St where
  to_write : List OutRecord
  undefined_layers : List ℤ
  deriving DecidableEq, Repr

/-- The initial state: both globals start empty. -/
def St.init : St := ⟨[], []⟩

mutual

/-- An object of the layout tree: a `Polygon` (its points already scaled by
1/10 at construction) tagged with a layer and the id drawn from the global
`object_id` counter, or a `Container` holding children. -/
inductive Cell : Type where
  | poly (points : List (ℚ × ℚ)) (layer : ℤ) (oid : ℕ) : Cell
  | container (children : List Child) : Cell

/-- One entry of `Container.children`: the tuple
`(obj, x, y, angle, mirror)` appended by `Container.add`. -/
inductive Child : Type where
  | mk (obj : Cell) (x y : ℚ) (angle : ℚ) (mirror : Bool) : Child

end

/-- The per-point body of the loop in `Polygon.print_me`: transform the point
by `rot_mirror_and_offset`, then `my_y = -my_y` ("because inkscape uses
graphics coordinates") — the single y-flip at final emission. -/
def emitPoint (x y angle : ℚ) (mirror : Bool) (p : ℚ × ℚ) : ℚ × ℚ :=
  let q := rot_mirror_and_offset p.1 p.2 angle mirror x y
  (q.1, -q.2)

mutual

/-- `print_me(x, y, angle, mirror)`.  For a `Polygon`: select the style
(falling back and recording the layer when it is not in `layer_colors`),
transform every point, flip y once per point, close the path with `z` and
append the record to `to_write`.  For a `Container`: for each child, compute
its new origin with `rot_mirror_and_offset`, and recurse with angle
`(c[3] + angle) % 360` and mirror `c[4] ^ mirror`. -/
def printMe : Cell → ℚ → ℚ → ℚ → Bool → St → St
  | Cell.poly pts layer oid, x, y, angle, mirror, s =>
    let s1 : St :=
      if (lookupLayer layer).isSome then s
      else { s with undefined_layers := setAdd s.undefined_layers layer }
    { s1 with to_write := s1.to_write ++
        [⟨layer, pts.map (emitPoint x y angle mirror), true, oid, styleFor layer⟩] }
  | Cell.container cs, x, y, angle, mirror, s => printChildren cs x y angle mirror s

/-- The `for c in self.children` loop of `Container.print_me`, threading the
global state left to right. -/
def printChildren : List Child → ℚ → ℚ → ℚ → Bool → St → St
  | [], _, _, _, _, s => s
  | Child.mk obj cx cy ca cm :: rest, x, y, angle, mirror, s =>
    let c := rot_mirror_and_offset cx cy angle mirror x y
    printChildren rest x y angle mirror
      (printMe obj c.1 c.2 (pymod (ca + angle) 360) (xor cm mirror) s)

end

mutual

/-- The pure list of records a `print_me` call appends to `to_write`: a
function of the tree and the incoming transform only (independent of the
state). -/
def records : Cell → ℚ → ℚ → ℚ → Bool → List OutRecord
  | Cell.poly pts layer oid, x, y, angle, mirror =>
    [⟨layer, pts.map (emitPoint x y angle mirror), true, oid, styleFor layer⟩]
  | Cell.container cs, x, y, angle, mirror => recordsChildren cs x y angle mirror

/-- `records` over a child list. -/
def recordsChildren : List Child → ℚ → ℚ → ℚ → Bool → List OutRecord
  | [], _, _, _, _ => []
  | Child.mk obj cx cy ca cm :: rest, x, y, angle, mirror =>
    let c := rot_mirror_and_offset cx cy angle mirror x y
    records obj c.1 c.2 (pymod (ca + angle) 360) (xor cm mirror) ++
      recordsChildren rest x y angle mirror

end

mutual

/-- The unmapped layers a `print_me` call feeds into `undefined_layers.add`,
in traversal order (a function of the tree alone). -/
def undefLayersOf : Cell → List ℤ
  | Cell.poly _ layer _ => if (lookupLayer layer).isSome then [] else [layer]
  | Cell.container cs => undefLayersOfChildren cs

/-- `undefLayersOf` over a child list. -/
def undefLayersOfChildren : List Child → List ℤ
  | [] => []
  | Child.mk obj _ _ _ _ :: rest => undefLayersOf obj ++ undefLayersOfChildren rest

end

/-- A primitive reachable from the resolution root, together with the
composed transform accumulated on the way down to it (offset `(tx, ty)`,
angle `ta`, mirror `tm`).  The accumulation (see `placedPrims`) involves no
y-flip; the flip happens once, in `emitRecordOf`. -/
structure PlacedPrim where
  points : List (ℚ × ℚ)
  layer : ℤ
  oid : ℕ
  tx : ℚ
  ty : ℚ
  ta : ℚ
  tm : Bool
  deriving DecidableEq, Repr

/-- The record emitted for one reachable primitive: its points passed through
the accumulated transform in points-array order, each flipped once by
`emitPoint`, the path closed by `z`. -/
def emitRecordOf (e : PlacedPrim) : OutRecord :=
  ⟨e.layer, e.points.map (emitPoint e.tx e.ty e.ta e.tm), true, e.oid, styleFor e.layer⟩

mutual

/-- All primitives reachable from `c` under the incoming transform, each
paired with the transform accumulated for it exactly as `Container.print_me`
accumulates it (child origin through `rot_mirror_and_offset`, angles summed
mod 360, mirrors XOR-ed) — no y-flip at any level. -/
def placedPrims : Cell → ℚ → ℚ → ℚ → Bool → List PlacedPrim
  | Cell.poly pts layer oid, x, y, angle, mirror => [⟨pts, layer, oid, x, y, angle, mirror⟩]
  | Cell.container cs, x, y, angle, mirror => placedPrimsChildren cs x y angle mirror

/-- `placedPrims` over a child list. -/
def placedPrimsChildren : List Child → ℚ → ℚ → ℚ → Bool → List PlacedPrim
  | [], _, _, _, _ => []
  | Child.mk obj cx cy ca cm :: rest, x, y, angle, mirror =>
    let c := rot_mirror_and_offset cx cy angle mirror x y
    placedPrims obj c.1 c.2 (pymod (ca + angle) 360) (xor cm mirror) ++
      placedPrimsChildren rest x y angle mirror

end

/-- The layer-key comparison `key=operator.itemgetter(0)` sorts by. -/
def layerLE (a b : OutRecord) : Prop := a.layer ≤ b.layer

instance : DecidableRel layerLE := fun a b => inferInstanceAs (Decidable (a.layer ≤ b.layer))

instance : IsTotal OutRecord layerLE := ⟨fun a b => le_total a.layer b.layer⟩

instance : IsTrans OutRecord layerLE := ⟨fun _ _ _ h1 h2 => le_trans h1 h2⟩

instance : IsRefl OutRecord layerLE := ⟨fun a => le_refl a.layer⟩

/-- `dump_to_write_to_file`: `to_write = sorted(to_write, key=operator.itemgetter(0))`,
then the records are written out in list order.  Python's `sorted` is a stable
ascending sort by the key; a stable sort by a key is extensionally unique, so
it is modelled by insertion sort under the non-strict `≤` on the layer (which
is stable: an element is inserted before the first strictly greater key). -/
def dump (l : List OutRecord) : List OutRecord := List.insertionSort layerLE l

/-- One structured record of the ASCII dump stream, as handed over by the
parser collaborator (tokenizing, field extraction and the `int()` conversions
are the parser's job and out of scope).  A `Cell Instance` line and its
continuation line are one record; a `Polygon` record carries its full
(possibly multi-line) point list. -/
inductive Record : Type where
  | cellName (name : String)
  | cellInstance (name : String) (x y : ℤ) (angle : ℚ) (mirror : Bool)
  | endCellDefinition
  | rectangle (layer : ℤ) (x1 y1 x2 y2 : ℤ)
  | polygon (layer : ℤ) (pts : List (ℤ × ℤ))

/-- The uncaught Python exceptions the main code can die with:
`cells[name]` on a missing name (`KeyError` — the spec's `UnknownCellError`),
and `currentCell.add`/`currentCell.print_me` while `currentCell` is still the
integer `0` (`AttributeError`). -/
inductive PyErr : Type where
  | keyError (name : String)
  | attributeError
  deriving DecidableEq, Repr

/-- The state of the main parse loop: the `cells` dict (an association list,
most recent binding first, so lookup sees the latest definition of a name),
the name of `currentCell`, and the global `object_id` counter.  `created` is a
specification-only ghost log of the id handed out at each `Polygon`
construction; it mirrors the counter's history and is read by no operation. -/
structure PSt where
  cells : List (String × List Child)
  current : Option String
  object_id : ℕ
  created : List ℕ

/-- The empty starting state of the main code. -/
def PSt.init : PSt := ⟨[], none, 0, []⟩

/-- Dict lookup in `cells` (first binding wins — the most recent one). -/
def lookupCells : List (String × List Child) → String → Option (List Child)
  | [], _ => none
  | (m, ch) :: rest, n => if m = n then some ch else lookupCells rest n

/-- Append a child to the (most recent) cell named `n`, i.e. the mutation
`currentCell.add(...)`; `n` is always the front-most binding since `current`
is only set by a `Cell Name` record that just pushed a fresh binding. -/
def addAssoc : List (String × List Child) → String → Child → List (String × List Child)
  | [], _, _ => []
  | (m, ch) :: rest, n, c =>
    if m = n then (m, ch ++ [c]) :: rest else (m, ch) :: addAssoc rest n c

/-- `currentCell.add(obj, x, y, angle, mirror)`: an `AttributeError` if no
`Cell Name` record has been seen yet (`currentCell` is still `0`). -/
def addToCurrent (s : PSt) (c : Child) : Except PyErr PSt :=
  match s.current with
  | none => Except.error PyErr.attributeError
  | some n => Except.ok { s with cells := addAssoc s.cells n c }

/-- Scaling at `Polygon.__init__`: `(p[0] / 10, p[1] / 10)` — the raw integer
coordinates divided by the fixed factor 10, modelled as exact division in ℚ. -/
def scalePt (p : ℤ × ℤ) : ℚ × ℚ := ((p.1 : ℚ) / 10, (p.2 : ℚ) / 10)

/-- `Polygon(points, layer)`: scale every point by 1/10, take the layer, draw
`self.id` from the global `object_id` counter and increment it (the ghost
`created` log records the id handed out). -/
def mkPolygon (rawPts : List (ℤ × ℤ)) (layer : ℤ) (s : PSt) : Cell × PSt :=
  (Cell.poly (rawPts.map scalePt) layer s.object_id,
   { s with object_id := s.object_id + 1, created := s.created ++ [s.object_id] })

/-- One iteration of the main parse loop.  On `Cell Instance`, `c = cells[name]`
raises `KeyError` for an unknown name before anything is added; the embedding
snapshots the referenced cell's children at instancing time, which agrees with
Python's sharing of the `Container` object whenever a cell is fully defined
before it is referenced (the spec's §3 invariant).  Rectangles are expanded to
the closed 5-point polygon before construction, and polygons are added with
offset (0,0), angle 0, no mirror. -/
def step (s : PSt) : Record → Except PyErr PSt
  | Record.cellName n =>
    Except.ok { s with cells := (n, []) :: s.cells, current := some n }
  | Record.cellInstance n x y a m =>
    match lookupCells s.cells n with
    | none => Except.error (PyErr.keyError n)
    | some ch =>
      addToCurrent s (Child.mk (Cell.container ch) ((x : ℚ) / 10) ((y : ℚ) / 10) a m)
  | Record.endCellDefinition => Except.ok s
  | Record.rectangle layer x1 y1 x2 y2 =>
    let raw := [(x1, y1), (x1, y2), (x2, y2), (x2, y1), (x1, y1)]
    let ps := mkPolygon raw layer s
    addToCurrent ps.2 (Child.mk ps.1 0 0 0 false)
  | Record.polygon layer pts =>
    let ps := mkPolygon pts layer s
    addToCurrent ps.2 (Child.mk ps.1 0 0 0 false)

/-- The main parse loop from a given state; the first uncaught exception
aborts the run. -/
def runRecords : PSt → List Record → Except PyErr PSt
  | s, [] => Except.ok s
  | s, r :: rs =>
    match step s r with
    | Except.error e => Except.error e
    | Except.ok s' => runRecords s' rs

/-- Ingest the whole stream from the empty state. -/
def processRecords (rs : List Record) : Except PyErr PSt :=
  runRecords PSt.init rs

/-- The names bound by `Cell Name` records of a stream. -/
def definedNames : List Record → List String
  | [] => []
  | Record.cellName n :: rest => n :: definedNames rest
  | _ :: rest => definedNames rest

/-- Root selection: the cell named on the command line if one was given
(`cells[sys.argv[3]]`, a `KeyError` if absent), else `currentCell` — the last
cell defined (an `AttributeError` if the stream defined none). -/
def rootCellFor (s : PSt) (rootName : Option String) : Except PyErr Cell :=
  match rootName with
  | some n =>
    match lookupCells s.cells n with
    | some ch => Except.ok (Cell.container ch)
    | none => Except.error (PyErr.keyError n)
  | none =>
    match s.current with
    | some n =>
      match lookupCells s.cells n with
      | some ch => Except.ok (Cell.container ch)
      | none => Except.error (PyErr.keyError n)
    | none => Except.error PyErr.attributeError

/-- The whole batch run: ingest the stream, select the root, resolve it from
the identity transform (`print_me(0, 0, 0, 0)`), and stable-sort the emitted
records by layer.  Geometry output exists only when every step succeeded —
`dump_to_write_to_file` runs after the recursion completed. -/
def mainRun (rs : List Record) (rootName : Option String) :
    Except PyErr (List OutRecord) :=
  match processRecords rs with
  | Except.error e => Except.error e
  | Except.ok s =>
    match rootCellFor s rootName with
    | Except.error e => Except.error e
    | Except.ok root => Except.ok (dump (printMe root 0 0 0 false St.init).to_write)

end Convert

namespace Convert

mutual

/-- What any `print_me` call does to `to_write`: it appends the pure record
list `records c x y angle m` — a function of the tree and the incoming
transform only — after the records already present. -/
theorem printMe_to_write : ∀ (c : Cell) (x y angle : ℚ) (m : Bool) (s : St),
    (printMe c x y angle m s).to_write = s.to_write ++ records c x y angle m
  | Cell.poly pts layer oid, x, y, angle, m, s => by
    by_cases h : (lookupLayer layer).isSome <;> simp [printMe, records, h]
  | Cell.container cs, x, y, angle, m, s => printChildren_to_write cs x y angle m s

/-- `printMe_to_write` for the child loop. -/
theorem printChildren_to_write : ∀ (cs : List Child) (x y angle : ℚ) (m : Bool) (s : St),
    (printChildren cs x y angle m s).to_write
      = s.to_write ++ recordsChildren cs x y angle m
  | [], _, _, _, _, s => by simp [printChildren, recordsChildren]
  | Child.mk obj cx cy ca cm :: rest, x, y, angle, m, s => by
    have h1 := printMe_to_write obj
      (rot_mirror_and_offset cx cy angle m x y).1
      (rot_mirror_and_offset cx cy angle m x y).2
      (pymod (ca + angle) 360) (xor cm m) s
    have h2 := printChildren_to_write rest x y angle m
      (printMe obj (rot_mirror_and_offset cx cy angle m x y).1
        (rot_mirror_and_offset cx cy angle m x y).2
        (pymod (ca + angle) 360) (xor cm m) s)
    simp [printChildren, h2, h1, List.append_assoc, recordsChildren]

end

mutual

/-- What any `print_me` call does to `undefined_layers`: it folds
`set.add` over the unmapped layers of the subtree, in traversal order. -/
theorem printMe_undefined : ∀ (c : Cell) (x y angle : ℚ) (m : Bool) (s : St),
    (printMe c x y angle m s).undefined_layers
      = (undefLayersOf c).foldl setAdd s.undefined_layers
  | Cell.poly pts layer oid, x, y, angle, m, s => by
    by_cases h : (lookupLayer layer).isSome <;> simp [printMe, undefLayersOf, h]
  | Cell.container cs, x, y, angle, m, s => printChildren_undefined cs x y angle m s

/-- `printMe_undefined` for the child loop. -/
theorem printChildren_undefined : ∀ (cs : List Child) (x y angle : ℚ) (m : Bool) (s : St),
    (printChildren cs x y angle m s).undefined_layers
      = (undefLayersOfChildren cs).foldl setAdd s.undefined_layers
  | [], _, _, _, _, s => by simp [printChildren, undefLayersOfChildren]
  | Child.mk obj cx cy ca cm :: rest, x, y, angle, m, s => by
    have h1 := printMe_undefined obj
      (rot_mirror_and_offset cx cy angle m x y).1
      (rot_mirror_and_offset cx cy angle m x y).2
      (pymod (ca + angle) 360) (xor cm m) s
    have h2 := printChildren_undefined rest x y angle m
      (printMe obj (rot_mirror_and_offset cx cy angle m x y).1
        (rot_mirror_and_offset cx cy angle m x y).2
        (pymod (ca + angle) 360) (xor cm m) s)
    simp [printChildren, h2, h1, undefLayersOfChildren, List.foldl_append]

end

/-- Membership is preserved by `set.add`. -/
theorem mem_setAdd_of_mem {l : ℤ} {s : List ℤ} (h : l ∈ s) (l' : ℤ) :
    l ∈ setAdd s l' := by
  unfold setAdd; split <;> simp [h]

/-- The added element is in the set afterwards. -/
theorem mem_setAdd_self (s : List ℤ) (l : ℤ) : l ∈ setAdd s l := by
  unfold setAdd; split <;> simp_all

/-- `set.add` never introduces a duplicate. -/
theorem nodup_setAdd {s : List ℤ} (h : s.Nodup) (l : ℤ) : (setAdd s l).Nodup := by
  unfold setAdd; split
  · exact h
  · simp_all [List.nodup_append]

/-- Once an element is in the set, `set.add` does not change its
multiplicity. -/
theorem count_setAdd_of_mem {l : ℤ} {s : List ℤ} (h : l ∈ s) (l' : ℤ) :
    (setAdd s l').count l = s.count l := by
  unfold setAdd; split
  · rfl
  · rename_i hl'
    have hne : l' ≠ l := fun he => hl' (he ▸ h)
    have h0 : List.count l [l'] = 0 := by
      rw [List.count_eq_zero, List.mem_singleton]
      exact fun he => hne he.symm
    rw [List.count_append, h0]
    simp

/-- Membership is preserved by folding `set.add` over any list. -/
theorem mem_foldl_setAdd_of_mem {l : ℤ} {s : List ℤ} (h : l ∈ s) (L : List ℤ) :
    l ∈ L.foldl setAdd s := by
  induction L generalizing s with
  | nil => exact h
  | cons a L ih => exact ih (mem_setAdd_of_mem h a)

/-- Every folded-in element is in the resulting set. -/
theorem mem_foldl_setAdd_of_mem_list {l : ℤ} {L : List ℤ} (h : l ∈ L) (s : List ℤ) :
    l ∈ L.foldl setAdd s := by
  induction L generalizing s with
  | nil => cases h
  | cons a L ih =>
    rcases List.mem_cons.mp h with h | h
    · exact mem_foldl_setAdd_of_mem (h ▸ mem_setAdd_self s a) L
    · exact ih h _

/-- Folding `set.add` keeps the set duplicate-free. -/
theorem nodup_foldl_setAdd {s : List ℤ} (h : s.Nodup) (L : List ℤ) :
    (L.foldl setAdd s).Nodup := by
  induction L generalizing s with
  | nil => exact h
  | cons a L ih => exact ih (nodup_setAdd h a)

/-- Once an element is present, folding `set.add` does not change its
multiplicity. -/
theorem count_foldl_setAdd_of_mem {l : ℤ} {s : List ℤ} (h : l ∈ s) (L : List ℤ) :
    (L.foldl setAdd s).count l = s.count l := by
  induction L generalizing s with
  | nil => rfl
  | cons a L ih =>
    rw [List.foldl_cons, ih (mem_setAdd_of_mem h a), count_setAdd_of_mem h a]

/-- The set only grows at the end: the old contents stay an initial segment. -/
theorem foldl_setAdd_append (s : List ℤ) (L : List ℤ) :
    ∃ t, L.foldl setAdd s = s ++ t := by
  induction L generalizing s with
  | nil => exact ⟨[], by simp⟩
  | cons a L ih =>
    rcases ih (setAdd s a) with ⟨t, ht⟩
    rw [List.foldl_cons]
    by_cases h : a ∈ s
    · exact ⟨t, by rw [ht]; simp [setAdd, h]⟩
    · exact ⟨a :: t, by rw [ht]; simp [setAdd, h]⟩

/-- C2: for each of the four supported angles, `rot_mirror_and_offset` is
exactly rotate-then-mirror-then-translate, i.e. `offset + M(mirror)·R(angle)·p`
with the exact right-angle rotation forms. -/
theorem rot_mirror_and_offset_eq_spec_compose (x y ox oy : ℚ) (m : Bool) (a : ℚ)
    (ha : a = 0 ∨ a = 90 ∨ a = 180 ∨ a = 270) :
    rot_mirror_and_offset x y a m ox oy = spec_compose (x, y) a m (ox, oy) := by
  rcases ha with h | h | h | h <;> subst h <;>
    cases m <;>
      simp [rot_mirror_and_offset, spec_compose, spec_rotate, spec_mirror]

/-- Witness for C2: the theorem applied at the concrete input
`(x,y) = (2,5)`, angle 90, mirror true, offset `(7,11)`. -/
theorem rot_mirror_and_offset_eq_spec_compose_witness :
    rot_mirror_and_offset 2 5 90 true 7 11 = spec_compose (2, 5) 90 true (7, 11) :=
  rot_mirror_and_offset_eq_spec_compose 2 5 7 11 true 90 (Or.inr (Or.inl rfl))

/-- C10: any angle other than exactly 90, 180 or 270 (e.g. 45, negative or
non-integer angles) falls through to the `else  # angle == 0` branch:
the transform behaves as if the angle were 0, and no error is raised. -/
theorem rot_mirror_and_offset_unsupported_angle (x y ox oy : ℚ) (m : Bool) (a : ℚ)
    (h90 : a ≠ 90) (h180 : a ≠ 180) (h270 : a ≠ 270) :
    rot_mirror_and_offset x y a m ox oy = rot_mirror_and_offset x y 0 m ox oy := by
  simp [rot_mirror_and_offset, h90, h180, h270]

/-- Witness for C10: the theorem applied at the non-integer angle `91/2 = 45.5`. -/
theorem rot_mirror_and_offset_unsupported_angle_witness :
    rot_mirror_and_offset 1 2 (91/2) true 3 4 = rot_mirror_and_offset 1 2 0 true 3 4 :=
  rot_mirror_and_offset_unsupported_angle 1 2 3 4 true (91/2)
    (by norm_num) (by norm_num) (by norm_num)

mutual

/-- The record list a `print_me` call appends is one record per reachable
primitive-with-accumulated-transform. -/
theorem records_eq_placedPrims : ∀ (c : Cell) (x y angle : ℚ) (m : Bool),
    records c x y angle m = (placedPrims c x y angle m).map emitRecordOf
  | Cell.poly pts layer oid, x, y, angle, m => by
    simp [records, placedPrims, emitRecordOf]
  | Cell.container cs, x, y, angle, m => recordsChildren_eq_placedPrims cs x y angle m

/-- `records_eq_placedPrims` for the child loop. -/
theorem recordsChildren_eq_placedPrims : ∀ (cs : List Child) (x y angle : ℚ) (m : Bool),
    recordsChildren cs x y angle m = (placedPrimsChildren cs x y angle m).map emitRecordOf
  | [], _, _, _, _ => by simp [recordsChildren, placedPrimsChildren]
  | Child.mk obj cx cy ca cm :: rest, x, y, angle, m => by
    have h1 := records_eq_placedPrims obj
      (rot_mirror_and_offset cx cy angle m x y).1
      (rot_mirror_and_offset cx cy angle m x y).2
      (pymod (ca + angle) 360) (xor cm m)
    have h2 := recordsChildren_eq_placedPrims rest x y angle m
    simp [recordsChildren, placedPrimsChildren, h1, h2]

end

/-- C3: a `print_me` run appends exactly one record per primitive reachable
from the root under the accumulated composed transform; each record's path is
the primitive's points passed through that transform in points-array order,
each point y-flipped exactly once (inside `emitPoint`, at final emission —
the accumulation in `placedPrims` is flip-free), and the path is closed by
`z`, so the traced polygon repeats the first point as the last. -/
theorem print_me_emits_transformed_closed_paths (c : Cell) (x y angle : ℚ) (m : Bool) (s : St) :
    (printMe c x y angle m s).to_write
      = s.to_write ++ (placedPrims c x y angle m).map emitRecordOf
    ∧ ∀ e ∈ placedPrims c x y angle m,
        (emitRecordOf e).pathPts = e.points.map (emitPoint e.tx e.ty e.ta e.tm)
        ∧ (emitRecordOf e).closed = true
        ∧ svgTracedPts (emitRecordOf e)
            = e.points.map (emitPoint e.tx e.ty e.ta e.tm)
              ++ (e.points.map (emitPoint e.tx e.ty e.ta e.tm)).take 1 := by
  refine ⟨?_, ?_⟩
  · rw [printMe_to_write, records_eq_placedPrims]
  · intro e _
    exact ⟨rfl, rfl, by simp [svgTracedPts, emitRecordOf]⟩

/-- Witness for C3: the theorem applied to a concrete one-polygon tree,
with the record-shape conjunct instantiated at its single reachable
primitive. -/
theorem print_me_emits_transformed_closed_paths_witness :
    (printMe (Cell.poly [(1, 2), (3, 4)] 31 7) 5 6 90 true St.init).to_write
      = St.init.to_write
        ++ (placedPrims (Cell.poly [(1, 2), (3, 4)] 31 7) 5 6 90 true).map emitRecordOf
    ∧ (emitRecordOf ⟨[(1, 2), (3, 4)], 31, 7, 5, 6, 90, true⟩).closed = true := by
  constructor
  · exact (print_me_emits_transformed_closed_paths
      (Cell.poly [(1, 2), (3, 4)] 31 7) 5 6 90 true St.init).1
  · exact ((print_me_emits_transformed_closed_paths
      (Cell.poly [(1, 2), (3, 4)] 31 7) 5 6 90 true St.init).2
        ⟨[(1, 2), (3, 4)], 31, 7, 5, 6, 90, true⟩ (by simp [placedPrims])).2.1

/-- C9: resolution is read-only on the source tree.  The tree is pure input
(`print_me` performs no assignment to any cell or polygon field in the
source, which the embedding reflects by `Cell` being a pure value); the only
state effects are: `to_write` grows by a list that is a pure function of the
tree and the incoming transform, and `undefined_layers` only gains a suffix.
Hence resolving the same tree a second time observes the unchanged tree and
appends the identical record list again. -/
theorem print_me_readonly (c : Cell) (x y angle : ℚ) (m : Bool) (s : St) :
    (printMe c x y angle m s).to_write = s.to_write ++ records c x y angle m
    ∧ (∃ t, (printMe c x y angle m s).undefined_layers = s.undefined_layers ++ t)
    ∧ (printMe c x y angle m (printMe c x y angle m s)).to_write
        = s.to_write ++ records c x y angle m ++ records c x y angle m := by
  refine ⟨printMe_to_write c x y angle m s, ?_, ?_⟩
  · rw [printMe_undefined]
    exact foldl_setAdd_append s.undefined_layers (undefLayersOf c)
  · rw [printMe_to_write, printMe_to_write]

/-- C6: for a layer absent from `layer_colors`, `Polygon.print_me` always
succeeds, uses the fixed black/0.8/black fallback style, and adds the layer
to `undefined_layers` exactly once: after the first such polygon the layer's
multiplicity in the set is 1, and it stays 1 however many further primitives
on that layer an arbitrary further tree `c` resolves. -/
theorem unknown_layer_fallback (layer : ℤ) (hl : lookupLayer layer = none)
    (s : St) (hmem : layer ∉ s.undefined_layers)
    (pts : List (ℚ × ℚ)) (oid : ℕ) (x y a : ℚ) (m : Bool)
    (c : Cell) (x' y' a' : ℚ) (m' : Bool) :
    (printMe (Cell.poly pts layer oid) x y a m s).to_write
      = s.to_write
        ++ [⟨layer, pts.map (emitPoint x y a m), true, oid, ("000000", "0.8", "000000")⟩]
    ∧ (printMe (Cell.poly pts layer oid) x y a m s).undefined_layers.count layer = 1
    ∧ (printMe c x' y' a' m'
        (printMe (Cell.poly pts layer oid) x y a m s)).undefined_layers.count layer = 1 := by
  have hstyle : styleFor layer = ("000000", "0.8", "000000") := by
    simp [styleFor, hl, fallback_color_info]
  have hu1 : (printMe (Cell.poly pts layer oid) x y a m s).undefined_layers
      = s.undefined_layers ++ [layer] := by
    rw [printMe_undefined]
    simp [undefLayersOf, Option.isSome_iff_exists, hl, setAdd, hmem]
  have hc1 : (printMe (Cell.poly pts layer oid) x y a m s).undefined_layers.count layer = 1 := by
    rw [hu1, List.count_append, List.count_eq_zero.mpr hmem]
    simp
  refine ⟨?_, hc1, ?_⟩
  · rw [printMe_to_write]
    simp [records, hstyle]
  · rw [printMe_undefined]
    rw [count_foldl_setAdd_of_mem _ (undefLayersOf c)]
    · exact hc1
    · rw [hu1]; simp

/-- Witness for C6: the theorem applied at the unmapped layer 99, the empty
initial state, a concrete polygon and a concrete further tree on the same
layer. -/
theorem unknown_layer_fallback_witness :
    (printMe (Cell.poly [(1, 1)] 99 0) 0 0 0 false St.init).to_write
      = St.init.to_write
        ++ [⟨99, [(1, 1)].map (emitPoint 0 0 0 false), true, 0, ("000000", "0.8", "000000")⟩]
    ∧ (printMe (Cell.poly [(1, 1)] 99 0) 0 0 0 false St.init).undefined_layers.count 99 = 1
    ∧ (printMe (Cell.poly [(2, 2)] 99 1) 0 0 0 false
        (printMe (Cell.poly [(1, 1)] 99 0) 0 0 0 false St.init)).undefined_layers.count 99
        = 1 :=
  unknown_layer_fallback 99 (by simp [lookupLayer, layer_colors]) St.init
    (by simp [St.init]) [(1, 1)] 0 0 0 0 false
    (Cell.poly [(2, 2)] 99 1) 0 0 0 false

/-- Inserting one record by `≤` on the layer is stable at each layer: the
sublist of records on layer `k` gains the new record at its front exactly
when the new record is on layer `k` itself (no record on layer `k` is
skipped, since skipped records have strictly smaller layers). -/
theorem filter_orderedInsert (k : ℤ) (a : OutRecord) (L : List OutRecord) :
    (List.orderedInsert layerLE a L).filter (fun r => decide (r.layer = k))
      = if a.layer = k
        then a :: L.filter (fun r => decide (r.layer = k))
        else L.filter (fun r => decide (r.layer = k)) := by
  induction L with
  | nil => by_cases h : a.layer = k <;> simp [List.orderedInsert, h]
  | cons b L ih =>
    rw [List.orderedInsert]
    by_cases hab : layerLE a b
    · rw [if_pos hab]
      by_cases ha : a.layer = k <;> simp [List.filter_cons, ha]
    · rw [if_neg hab]
      have hlt : b.layer < a.layer := lt_of_not_le hab
      by_cases ha : a.layer = k
      · have hb : ¬ b.layer = k := by rw [← ha]; exact ne_of_lt hlt
        simp [List.filter_cons, hb, ih, ha]
      · by_cases hb : b.layer = k <;> simp [List.filter_cons, hb, ih, ha]

/-- Insertion sort by `≤` on the layer preserves each layer's sublist — the
relative order of same-layer records is untouched. -/
theorem filter_insertionSort (k : ℤ) (l : List OutRecord) :
    (List.insertionSort layerLE l).filter (fun r => decide (r.layer = k))
      = l.filter (fun r => decide (r.layer = k)) := by
  induction l with
  | nil => rfl
  | cons a l ih =>
    rw [List.insertionSort, filter_orderedInsert]
    by_cases h : a.layer = k <;> simp [List.filter_cons, h, ih]

/-- C5: the linearizer returns the same multiset of records
(a permutation), sorted by layer ascending, and stably so: for every layer
`k`, the sublist of layer-`k` records equals the layer-`k` sublist of the
emission sequence.  In particular, four records emitted on layers
`[5, 1, 5, 3]` come out on layers `[1, 3, 5, 5]` with the first-emitted
layer-5 record (id 10) before the second-emitted one (id 12). -/
theorem dump_stable_sort_by_layer (l : List OutRecord) (k : ℤ) :
    (dump l).Perm l
    ∧ List.Sorted layerLE (dump l)
    ∧ (dump l).filter (fun r => decide (r.layer = k))
        = l.filter (fun r => decide (r.layer = k))
    ∧ (dump [⟨5, [], true, 10, ("", "", "")⟩, ⟨1, [], true, 11, ("", "", "")⟩,
             ⟨5, [], true, 12, ("", "", "")⟩, ⟨3, [], true, 13, ("", "", "")⟩]).map
          (fun r => (r.layer, r.oid))
        = [(1, 11), (3, 13), (5, 10), (5, 12)] := by
  refine ⟨List.perm_insertionSort layerLE l, List.sorted_insertionSort layerLE l,
    filter_insertionSort k l, ?_⟩
  norm_num [dump, List.insertionSort, List.orderedInsert, layerLE]

set_option maxHeartbeats 1000000 in
/-- How one level of `Container.print_me` accumulation relates to nesting two
`rot_mirror_and_offset` calls: the engine's sum-the-angles / XOR-the-mirrors /
transform-the-offset accumulation agrees with first applying the child
transform and then the parent transform — but only when the child is not
mirrored, or the parent angle is 0 or 180.  (When the child is mirrored and
the parent angle is 90 or 270, rotating after a reflection reverses the
rotation direction, while the engine still adds the angles.) -/
theorem rmo_compose (p Co Po : ℚ × ℚ) (Ca Pa : ℚ) (Cm Pm : Bool)
    (hPa : Pa = 0 ∨ Pa = 90 ∨ Pa = 180 ∨ Pa = 270)
    (hCa : Ca = 0 ∨ Ca = 90 ∨ Ca = 180 ∨ Ca = 270)
    (hc : Cm = false ∨ Pa = 0 ∨ Pa = 180) :
    rot_mirror_and_offset
      (rot_mirror_and_offset p.1 p.2 Ca Cm Co.1 Co.2).1
      (rot_mirror_and_offset p.1 p.2 Ca Cm Co.1 Co.2).2 Pa Pm Po.1 Po.2
    = rot_mirror_and_offset p.1 p.2 (pymod (Ca + Pa) 360) (xor Cm Pm)
        (rot_mirror_and_offset Co.1 Co.2 Pa Pm Po.1 Po.2).1
        (rot_mirror_and_offset Co.1 Co.2 Pa Pm Po.1 Po.2).2 := by
  rcases hPa with h | h | h | h <;> subst h <;>
    rcases hCa with h | h | h | h <;> subst h <;>
      cases Cm <;> cases Pm <;>
        simp_all [rot_mirror_and_offset, pymod]
  all_goals try norm_num [Prod.ext_iff]
  all_goals try constructor
  all_goals ring

/-- C1 (amended): for a Primitive point `p` reached through a parent
Placement `P = (Po, Pa, Pm)` containing a child Placement `C = (Co, Ca, Cm)`,
the absolute coordinates the engine computes for `p` (resolving from the
identity transform) equal the nested application of `compose` — child first,
then parent — **provided** the child placement is not mirrored or the parent
angle is 0 or 180 (for the remaining angle/mirror combinations the engine's
added-angles accumulation differs; see the counterexample).  The emitted
record carries the final y-flip on top.  In particular, for a Cell A holding
a Primitive at local point (1,0) and a Cell B placing A at offset (10,0),
angle 90, no mirror, resolving B from the identity yields (10,1) before the
final y-flip, i.e. (10,−1) in the emitted record. -/
theorem nested_resolution_eq_nested_compose (p Co Po : ℚ × ℚ) (Ca Pa : ℚ) (Cm Pm : Bool)
    (layer : ℤ) (oid : ℕ) (s : St)
    (hPa : Pa = 0 ∨ Pa = 90 ∨ Pa = 180 ∨ Pa = 270)
    (hCa : Ca = 0 ∨ Ca = 90 ∨ Ca = 180 ∨ Ca = 270)
    (hc : Cm = false ∨ Pa = 0 ∨ Pa = 180) :
    (printMe (Cell.container [Child.mk
        (Cell.container [Child.mk (Cell.poly [p] layer oid) Co.1 Co.2 Ca Cm])
        Po.1 Po.2 Pa Pm]) 0 0 0 false s).to_write
      = s.to_write ++ [⟨layer,
          [(let q := rot_mirror_and_offset
              (rot_mirror_and_offset p.1 p.2 Ca Cm Co.1 Co.2).1
              (rot_mirror_and_offset p.1 p.2 Ca Cm Co.1 Co.2).2 Pa Pm Po.1 Po.2;
            (q.1, -q.2))], true, oid, styleFor layer⟩]
    ∧ (printMe (Cell.container [Child.mk
        (Cell.container [Child.mk (Cell.poly [((1 : ℚ), (0 : ℚ))] 31 0) 0 0 0 false])
        10 0 90 false]) 0 0 0 false St.init).to_write.map OutRecord.pathPts
      = [[((10 : ℚ), (-1 : ℚ))]] := by
  constructor
  · rw [printMe_to_write]
    have hPa0 : pymod Pa 360 = Pa := by
      rcases hPa with h | h | h | h <;> subst h <;> norm_num [pymod]
    have hid : rot_mirror_and_offset Po.1 Po.2 0 false 0 0 = (Po.1, Po.2) := by
      norm_num [rot_mirror_and_offset]
    have hcomp := rmo_compose p Co Po Ca Pa Cm Pm hPa hCa hc
    simp [records, recordsChildren, emitPoint, hid, hPa0, Bool.xor_false, hcomp]
  · rw [printMe_to_write]
    have h90 : pymod (90 : ℚ) 360 = 90 := by norm_num [pymod]
    norm_num [records, recordsChildren, emitPoint, rot_mirror_and_offset,
      h90, St.init]

/-- Witness for C1 (amended): the theorem applied at `p = (1,2)`,
child placement `(Co, Ca, Cm) = ((3,4), 90, false)`, parent placement
`(Po, Pa, Pm) = ((10,0), 90, false)`. -/
theorem nested_resolution_eq_nested_compose_witness :
    (printMe (Cell.container [Child.mk
        (Cell.container [Child.mk (Cell.poly [((1 : ℚ), (2 : ℚ))] 31 5) 3 4 90 false])
        10 0 90 false]) 0 0 0 false St.init).to_write
      = St.init.to_write ++ [⟨31,
          [(let q := rot_mirror_and_offset
              (rot_mirror_and_offset (1 : ℚ) (2 : ℚ) 90 false 3 4).1
              (rot_mirror_and_offset (1 : ℚ) (2 : ℚ) 90 false 3 4).2 90 false 10 0;
            (q.1, -q.2))], true, 5, styleFor 31⟩]
    ∧ (printMe (Cell.container [Child.mk
        (Cell.container [Child.mk (Cell.poly [((1 : ℚ), (0 : ℚ))] 31 0) 0 0 0 false])
        10 0 90 false]) 0 0 0 false St.init).to_write.map OutRecord.pathPts
      = [[((10 : ℚ), (-1 : ℚ))]] :=
  nested_resolution_eq_nested_compose (1, 2) (3, 4) (10, 0) 90 90 false false 31 5 St.init
    (Or.inr (Or.inl rfl)) (Or.inr (Or.inl rfl)) (Or.inl rfl)

/-- C1 (counterexample): the claim's universal statement — the engine's
result equals the nested `compose` for *all four angles and both mirror
values* of parent and child — is false.  Take the parent placement at angle
90 (no mirror, zero offset), the child placement mirrored (angle 0, zero
offset), and the primitive point (0,1): the engine emits (−1,0), while the
nested compose (child first, then parent, then the final y-flip) gives
(1,0). -/
theorem nested_resolution_claim_counterexample :
    ¬ ((printMe (Cell.container [Child.mk
          (Cell.container [Child.mk (Cell.poly [((0 : ℚ), (1 : ℚ))] 31 0) 0 0 0 true])
          0 0 90 false]) 0 0 0 false St.init).to_write.map OutRecord.pathPts
        = [[(let q := rot_mirror_and_offset
              (rot_mirror_and_offset (0 : ℚ) (1 : ℚ) 0 true 0 0).1
              (rot_mirror_and_offset (0 : ℚ) (1 : ℚ) 0 true 0 0).2 90 false 0 0;
            (q.1, -q.2))]]) := by
  intro h
  rw [printMe_to_write] at h
  have h90 : pymod (90 : ℚ) 360 = 90 := by norm_num [pymod]
  norm_num [records, recordsChildren, emitPoint, rot_mirror_and_offset,
    h90, St.init] at h

/-- A name that is not a key of `cells` fails to look up. -/
theorem lookupCells_eq_none (l : List (String × List Child)) (n : String)
    (h : n ∉ l.map Prod.fst) : lookupCells l n = none := by
  induction l with
  | nil => rfl
  | cons hd tl ih =>
    obtain ⟨m, ch⟩ := hd
    simp only [List.map_cons, List.mem_cons] at h
    push_neg at h
    rw [lookupCells, if_neg (fun he => h.1 he.symm), ih h.2]

/-- `currentCell.add` does not change the set of defined cell names. -/
theorem addAssoc_keys (l : List (String × List Child)) (n : String) (c : Child) :
    (addAssoc l n c).map Prod.fst = l.map Prod.fst := by
  induction l with
  | nil => rfl
  | cons hd tl ih =>
    obtain ⟨m, ch⟩ := hd
    rw [addAssoc]
    split <;> simp [ih]

/-- A successful parse step defines exactly the names its record defines. -/
theorem step_keys {s s' : PSt} {r : Record} (h : step s r = Except.ok s') :
    s'.cells.map Prod.fst = definedNames [r] ++ s.cells.map Prod.fst := by
  cases r with
  | cellName n =>
    simp only [step, Except.ok.injEq] at h
    rw [← h]
    simp [definedNames]
  | cellInstance nm x y a m =>
    rw [step] at h
    split at h
    · cases h
    · rw [addToCurrent.eq_def] at h
      split at h
      · cases h
      · cases h
        simp [definedNames, addAssoc_keys]
  | endCellDefinition =>
    cases h
    simp [definedNames]
  | rectangle layer x1 y1 x2 y2 =>
    rw [step] at h
    rw [addToCurrent.eq_def] at h
    split at h
    · cases h
    · cases h
      simp [definedNames, addAssoc_keys, mkPolygon]
  | polygon layer pts =>
    rw [step] at h
    rw [addToCurrent.eq_def] at h
    split at h
    · cases h
    · cases h
      simp [definedNames, addAssoc_keys, mkPolygon]

/-- `definedNames` splits off the head record. -/
theorem definedNames_cons (r : Record) (rs : List Record) :
    definedNames (r :: rs) = definedNames [r] ++ definedNames rs := by
  cases r <;> simp [definedNames]

/-- Any name defined after a successful run was defined before it or by one
of its `Cell Name` records. -/
theorem runRecords_keys_subset (rs : List Record) :
    ∀ (s s' : PSt), runRecords s rs = Except.ok s' →
      ∀ n, n ∈ s'.cells.map Prod.fst →
        n ∈ s.cells.map Prod.fst ∨ n ∈ definedNames rs := by
  induction rs with
  | nil =>
    intro s s' h n hn
    rw [runRecords] at h
    cases h
    exact Or.inl hn
  | cons r rs ih =>
    intro s s' h n hn
    rw [runRecords] at h
    cases hstep : step s r with
    | error e => rw [hstep] at h; cases h
    | ok s1 =>
      rw [hstep] at h
      rcases ih s1 s' h n hn with h1 | h1
      · rw [step_keys hstep, List.mem_append] at h1
        rcases h1 with h1 | h1
        · exact Or.inr (by rw [definedNames_cons, List.mem_append]; exact Or.inl h1)
        · exact Or.inl h1
      · exact Or.inr (by rw [definedNames_cons, List.mem_append]; exact Or.inr h1)

/-- If the stream contains a `Cell Instance` of a name no `Cell Name` record
defines, the parse loop dies (with the `KeyError` of `cells[name]`, or an
earlier uncaught exception). -/
theorem runRecords_undefined_instance (rs : List Record) :
    ∀ (s : PSt) (n : String),
      (∃ x y a m, Record.cellInstance n x y a m ∈ rs) →
      n ∉ s.cells.map Prod.fst →
      n ∉ definedNames rs →
      ∃ e, runRecords s rs = Except.error e := by
  induction rs with
  | nil =>
    intro s n hmem _ _
    rcases hmem with ⟨x, y, a, m, hm⟩
    cases hm
  | cons r rs ih =>
    intro s n hmem hkeys hdef
    rcases hmem with ⟨x, y, a, m, hm⟩
    rcases List.mem_cons.mp hm with heq | htail
    · refine ⟨PyErr.keyError n, ?_⟩
      rw [← heq, runRecords, step, lookupCells_eq_none s.cells n hkeys]
    · cases hstep : step s r with
      | error e => exact ⟨e, by rw [runRecords, hstep]⟩
      | ok s1 =>
        rw [definedNames_cons, List.mem_append] at hdef
        push_neg at hdef
        have hkeys1 : n ∉ s1.cells.map Prod.fst := by
          rw [step_keys hstep, List.mem_append]
          exact fun hc => hc.elim hdef.1 hkeys
        obtain ⟨e, he⟩ := ih s1 n ⟨x, y, a, m, htail⟩ hkeys1 hdef.2
        exact ⟨e, by simp only [runRecords, hstep, he]⟩

/-- C4: referencing a Cell name that no `Cell Name` record ever defines —
through a `Cell Instance` placement or through the explicit root selection —
makes the run abort with an uncaught exception (the `KeyError` of
`cells[name]`, the spec's `UnknownCellError`, unless an earlier record
already died), and no geometry output is produced: `dump_to_write_to_file`
runs only after ingestion and resolution both succeeded. -/
theorem undefined_cell_reference_fatal (rs : List Record) (rootName : Option String)
    (n : String)
    (href : (∃ x y a m, Record.cellInstance n x y a m ∈ rs) ∨ rootName = some n)
    (hdef : n ∉ definedNames rs) :
    ∃ e, mainRun rs rootName = Except.error e := by
  rcases href with hinst | hroot
  · obtain ⟨e, he⟩ :=
      runRecords_undefined_instance rs PSt.init n hinst (by simp [PSt.init]) hdef
    exact ⟨e, by rw [mainRun, processRecords, he]⟩
  · subst hroot
    cases hproc : processRecords rs with
    | error e => exact ⟨e, by rw [mainRun, hproc]⟩
    | ok s =>
      have hn : n ∉ s.cells.map Prod.fst := by
        intro hmem
        rcases runRecords_keys_subset rs PSt.init s hproc n hmem with h | h
        · simp [PSt.init] at h
        · exact hdef h
      refine ⟨PyErr.keyError n, ?_⟩
      simp only [mainRun.eq_def, hproc, rootCellFor.eq_def,
        lookupCells_eq_none s.cells n hn]

/-- Witness for C4: a stream defining only cell "A" but instancing the
never-defined name "X" makes the whole run fail. -/
theorem undefined_cell_reference_fatal_witness :
    ∃ e, mainRun [Record.cellName "A", Record.cellInstance "X" 0 0 0 false] none
      = Except.error e :=
  undefined_cell_reference_fatal [Record.cellName "A", Record.cellInstance "X" 0 0 0 false]
    none "X" (Or.inl ⟨0, 0, 0, false, by simp⟩) (by simp [definedNames])

/-- A successful parse step either leaves the id counter and the creation log
alone, or (when it constructs a `Polygon`) logs exactly the current counter
value and increments the counter. -/
theorem step_created {s s' : PSt} {r : Record} (h : step s r = Except.ok s') :
    (s'.created = s.created ∧ s'.object_id = s.object_id)
    ∨ (s'.created = s.created ++ [s.object_id] ∧ s'.object_id = s.object_id + 1) := by
  cases r with
  | cellName n => cases h; exact Or.inl ⟨rfl, rfl⟩
  | cellInstance nm x y a m =>
    rw [step] at h
    split at h
    · cases h
    · rw [addToCurrent.eq_def] at h
      split at h
      · cases h
      · cases h; exact Or.inl ⟨rfl, rfl⟩
  | endCellDefinition => cases h; exact Or.inl ⟨rfl, rfl⟩
  | rectangle layer x1 y1 x2 y2 =>
    rw [step, addToCurrent.eq_def] at h
    split at h
    · cases h
    · cases h; exact Or.inr ⟨by simp [mkPolygon], by simp [mkPolygon]⟩
  | polygon layer pts =>
    rw [step, addToCurrent.eq_def] at h
    split at h
    · cases h
    · cases h; exact Or.inr ⟨by simp [mkPolygon], by simp [mkPolygon]⟩

/-- Invariant of the parse loop: the creation log is duplicate-free and every
logged id is below the counter. -/
theorem runRecords_created_inv (rs : List Record) :
    ∀ (s s' : PSt), runRecords s rs = Except.ok s' →
      s.created.Nodup → (∀ i ∈ s.created, i < s.object_id) →
      s'.created.Nodup ∧ ∀ i ∈ s'.created, i < s'.object_id := by
  induction rs with
  | nil =>
    intro s s' h h1 h2
    cases h
    exact ⟨h1, h2⟩
  | cons r rs ih =>
    intro s s' h h1 h2
    rw [runRecords] at h
    cases hstep : step s r with
    | error e => rw [hstep] at h; cases h
    | ok s1 =>
      rw [hstep] at h
      rcases step_created hstep with ⟨hc, ho⟩ | ⟨hc, ho⟩
      · exact ih s1 s' h (hc ▸ h1) (fun i hi => ho ▸ h2 i (hc ▸ hi))
      · refine ih s1 s' h ?_ ?_
        · rw [hc, List.nodup_append]
          exact ⟨h1, List.nodup_singleton _,
            fun i hi hm => absurd (h2 i hi) (by simp_all)⟩
        · intro i hi
          rw [hc, List.mem_append] at hi
          rw [ho]
          rcases hi with hi | hi
          · exact lt_trans (h2 i hi) (Nat.lt_succ_self _)
          · simp only [List.mem_singleton] at hi
            exact hi ▸ Nat.lt_succ_self _

/-- C7 (amended): each `Polygon` construction draws a fresh value from the
process-wide monotonically increasing `object_id` counter, so the ids handed
out over a whole ingestion run are pairwise distinct (and all below the final
counter).  Uniqueness of ids *per record of the emitted output* does NOT
follow — a Primitive shared by several Placements is emitted once per
placement with its one id; see the counterexample. -/
theorem created_ids_unique (rs : List Record) (s : PSt)
    (h : processRecords rs = Except.ok s) :
    s.created.Nodup ∧ ∀ i ∈ s.created, i < s.object_id :=
  runRecords_created_inv rs PSt.init s h (by simp [PSt.init]) (by simp [PSt.init])

/-- Witness for C7 (amended): a stream creating two polygons hands out the
distinct ids 0 and 1. -/
theorem created_ids_unique_witness :
    (PSt.mk [("A", [Child.mk (Cell.poly [(0, 0)] 6 0) 0 0 0 false,
                    Child.mk (Cell.poly [(1, 2)] 31 1) 0 0 0 false])]
        (some "A") 2 [0, 1]).created.Nodup
    ∧ ∀ i ∈ (PSt.mk [("A", [Child.mk (Cell.poly [(0, 0)] 6 0) 0 0 0 false,
                    Child.mk (Cell.poly [(1, 2)] 31 1) 0 0 0 false])]
        (some "A") 2 [0, 1]).created, i < (PSt.mk [("A", [Child.mk (Cell.poly [(0, 0)] 6 0) 0 0 0 false,
                    Child.mk (Cell.poly [(1, 2)] 31 1) 0 0 0 false])]
        (some "A") 2 [0, 1]).object_id :=
  created_ids_unique
    [Record.cellName "A", Record.polygon 6 [(0, 0)], Record.polygon 31 [(10, 20)]]
    (PSt.mk [("A", [Child.mk (Cell.poly [(0, 0)] 6 0) 0 0 0 false,
                    Child.mk (Cell.poly [(1, 2)] 31 1) 0 0 0 false])]
        (some "A") 2 [0, 1])
    (by norm_num [processRecords, runRecords, step, addToCurrent, addAssoc,
          lookupCells, mkPolygon, scalePt, PSt.init])

/-- C7 (counterexample): output-record ids are not unique when a cell is
instantiated more than once.  Cell "A" holds one rectangle (the Polygon gets
id 0 at creation); cell "B" places "A" twice; resolving "B" emits two records,
both carrying primitive id 0. -/
theorem output_ids_unique_counterexample :
    (mainRun [Record.cellName "A", Record.rectangle 31 0 0 10 20,
              Record.cellName "B",
              Record.cellInstance "A" 0 0 0 false,
              Record.cellInstance "A" 50 0 0 false] none).map
        (fun l => l.map OutRecord.oid)
      = Except.ok [0, 0]
    ∧ ¬ ([0, 0] : List ℕ).Nodup := by
  constructor
  · have h0 : pymod (0 : ℚ) 360 = 0 := by norm_num [pymod]
    have hBA : ("B" : String) ≠ "A" := by decide
    have hAB : ("A" : String) ≠ "B" := by decide
    norm_num [mainRun.eq_def, processRecords, runRecords, step, addToCurrent,
      addAssoc, lookupCells, mkPolygon, scalePt, PSt.init, rootCellFor.eq_def,
      printMe, printChildren, St.init, dump, List.insertionSort,
      List.orderedInsert, layerLE, emitPoint, rot_mirror_and_offset, setAdd,
      styleFor, lookupLayer, h0, hBA, hAB, Except.map]
  · simp

/-- C8: raw coordinates are divided by the fixed scale factor 10 exactly once,
at `Polygon.__init__` (exact division in ℚ), and the stored points are never
rescaled afterwards: emission passes each stored point through
`rot_mirror_and_offset` (negation/swap/translation only) and the final
y-negation — no further division or multiplication touches them. -/
theorem points_scaled_once_at_ingestion (raw : List (ℤ × ℤ)) (layer : ℤ) (s : PSt) :
    (mkPolygon raw layer s).1
      = Cell.poly (raw.map (fun p => ((p.1 : ℚ) / 10, (p.2 : ℚ) / 10))) layer s.object_id
    ∧ ∀ (pts : List (ℚ × ℚ)) (l : ℤ) (i : ℕ) (x y a : ℚ) (m : Bool) (st : St),
        (printMe (Cell.poly pts l i) x y a m st).to_write
          = st.to_write ++ [⟨l, pts.map (fun p =>
              ((rot_mirror_and_offset p.1 p.2 a m x y).1,
               -(rot_mirror_and_offset p.1 p.2 a m x y).2)), true, i, styleFor l⟩] := by
  constructor
  · simp [mkPolygon, scalePt]
  · intro pts l i x y a m st
    rw [printMe_to_write]
    simp [records, emitPoint]

end Convert
